import Mathlib

/-!
Verification development for the cointoss program (src/main.rs).

The program converts a sequence of coin flips into a BIP39-style mnemonic:
it collects entropy bits interactively, packs them into bytes, appends a
SHA-256 based checksum, splits the result into 11-bit groups and resolves
each group against a 2048-entry wordlist.

Modelling conventions:
  - machine integers are Nat with explicit `% 2 ^ w` where wrapping matters;
  - fallible code (panic, assert) is modelled with Option or a dedicated
    outcome type;
  - the interactive input stream is modelled as a list of already-trimmed,
    lowercased tokens, the random generator as an injectable `Nat → Nat`;
  - the wordlist (a fixed array of 2048 string literals in the source) is a
    `Nat → String` parameter, exactly as `bitstream_to_mnemonic` receives a
    reference to it; no claim depends on the word texts themselves.
-/

set_option maxRecDepth 8000

namespace Cointoss

/-- Command-line flags, one per strength selector, mirroring `struct Args`
with the five clap `SetTrue` flags `--12 --15 --18 --21 --24`. -/
structure Args where
  twelve : Bool
  fifteen : Bool
  eighteen : Bool
  twenty_one : Bool
  twenty_four : Bool
deriving DecidableEq

/-- The word-count selection chain at the top of `fn main`: the first set
flag in the order 12, 15, 18, 21, 24 wins; no flag set panics. -/
def choose_words (args : Args) : Option Nat :=
  if args.twelve then some 12
  else if args.fifteen then some 15
  else if args.eighteen then some 18
  else if args.twenty_one then some 21
  else if args.twenty_four then some 24
  else none

/-- `fn get_entropy_bits`: words → entropy bits, panic on anything else. -/
def get_entropy_bits (words : Nat) : Option Nat :=
  match words with
  | 12 => some 128
  | 15 => some 160
  | 18 => some 192
  | 21 => some 224
  | 24 => some 256
  | _ => none

/-- The hard-coded binary segments of the `preload` branch in
`fn prompt_for_coin_flips`: eleven copies of 11111110000 and one 1111111. -/
def preload_segments : List String :=
  ["11111110000", "11111110000", "11111110000", "11111110000",
   "11111110000", "11111110000", "11111110000", "11111110000",
   "11111110000", "11111110000", "11111110000", "1111111"]

/-- The flip list produced by the `preload` branch: every segment character
converted to its binary digit (char to_digit 2). -/
def preloadBits : List Nat :=
  (preload_segments.map (fun s => s.toList.map (fun c => c.toNat - 48))).flatten

/-- Outcome of the collection loop: a finished flip list, a process exit
with a code, or blocking forever on an exhausted input stream. -/
inductive CollectOutcome where
  | collected (flips : List Nat)
  | exited (code : Nat)
  | blocked
deriving DecidableEq

/-- `fn prompt_for_coin_flips`: the interactive collection loop.  The outer
`for` runs until `entropy_bits` flips are collected; each token is matched
against h, t, qf, qq, preload, fill; an unrecognized token re-prompts
without consuming a flip slot.  `rng k` models the k-th draw of
`rng.gen_range(0..=1)` in the qf branch. -/
def prompt_for_coin_flips (entropy_bits : Nat) (rng : Nat → Nat) :
    List String → List Nat → CollectOutcome
  | tokens, flips =>
    if entropy_bits ≤ flips.length then .collected flips
    else
      match tokens with
      | [] => .blocked
      | tok :: rest =>
        if tok = "h" then prompt_for_coin_flips entropy_bits rng rest (flips ++ [1])
        else if tok = "t" then prompt_for_coin_flips entropy_bits rng rest (flips ++ [0])
        else if tok = "qf" then
          .collected (flips ++ (List.range (entropy_bits - flips.length)).map rng)
        else if tok = "qq" then .exited 0
        else if tok = "preload" then .collected preloadBits
        else if tok = "fill" then
          .collected (flips ++ List.replicate (entropy_bits - flips.length) 1)
        else prompt_for_coin_flips entropy_bits rng rest flips

/-- The loop body of `fn flips_to_bitstream`: state is the emitted bytes,
the byte under construction (`current_byte`, a u8) and its bit count.  On
the eighth bit the byte is emitted; a trailing partial byte is left-shifted
so its collected bits sit in the high-order positions. -/
def packLoop : List Nat → Nat → Nat → List Nat
  | [], cur, cnt => if 0 < cnt then [(cur <<< (8 - cnt)) % 256] else []
  | flip :: rest, cur, cnt =>
    let cur2 := ((cur <<< 1) % 256) ||| flip
    let cnt2 := cnt + 1
    if cnt2 = 8 then cur2 :: packLoop rest 0 0
    else packLoop rest cur2 cnt2

/-- `fn flips_to_bitstream`: pack the flip list into bytes, MSB first. -/
def flips_to_bitstream (flips : List Nat) : List Nat :=
  packLoop flips 0 0

/-- One byte read most-significant-bit first, as both loops
`for bit_index in (0..8).rev()` of `fn extract_checksum` do. -/
def byteToBits (b : Nat) : List Nat :=
  [(b >>> 7) &&& 1, (b >>> 6) &&& 1, (b >>> 5) &&& 1, (b >>> 4) &&& 1,
   (b >>> 3) &&& 1, (b >>> 2) &&& 1, (b >>> 1) &&& 1, (b >>> 0) &&& 1]

/-- A byte list expanded to its bit sequence, byte by byte, MSB first. -/
def bytesToBits : List Nat → List Nat
  | [] => []
  | b :: rest => byteToBits b ++ bytesToBits rest

/-- The inner checksum loop of `fn extract_checksum` on one hash byte:
push the bits MSB first and break as soon as `checksum_size` bits have been
collected (push first, test after, exactly as the Rust loop does). -/
def innerBits (b cs : Nat) (acc : List Nat) : List Nat :=
  let a7 := acc ++ [(b >>> 7) &&& 1]
  if a7.length = cs then a7 else
  let a6 := a7 ++ [(b >>> 6) &&& 1]
  if a6.length = cs then a6 else
  let a5 := a6 ++ [(b >>> 5) &&& 1]
  if a5.length = cs then a5 else
  let a4 := a5 ++ [(b >>> 4) &&& 1]
  if a4.length = cs then a4 else
  let a3 := a4 ++ [(b >>> 3) &&& 1]
  if a3.length = cs then a3 else
  let a2 := a3 ++ [(b >>> 2) &&& 1]
  if a2.length = cs then a2 else
  let a1 := a2 ++ [(b >>> 1) &&& 1]
  if a1.length = cs then a1 else
  a1 ++ [(b >>> 0) &&& 1]

/-- The outer checksum loop of `fn extract_checksum` over the hash bytes,
with its early break once `checksum_size` bits are collected. -/
def checksumLoop : List Nat → Nat → List Nat → List Nat
  | [], _, acc => acc
  | b :: rest, cs, acc =>
    let acc2 := innerBits b cs acc
    if acc2.length = cs then acc2 else checksumLoop rest cs acc2

/-- `fn extract_checksum`: expand the packed buffer back to bits, append
`ent / 32` checksum bits taken from the hash, and assert the final length;
a failed assert (a panic) is `none`. -/
def extract_checksum (bitstream : List Nat) (sha256_hash : List Nat) (ent : Nat) :
    Option (List Nat) :=
  let checksum_size := ent / 32
  let checksum_bits := checksumLoop sha256_hash checksum_size []
  let final_bitstream := bytesToBits bitstream ++ checksum_bits
  if final_bitstream.length = ent + checksum_size then some final_bitstream else none

/-- The 11-bit group fold of `fn bitstream_to_mnemonic`:
`chunk.iter().fold(0, |acc, bit| (acc << 1) | bit as u16)` on a u16. -/
def chunkIndex (chunk : List Nat) : Nat :=
  chunk.foldl (fun acc bit => ((acc <<< 1) % 65536) ||| bit) 0

/-- The twelve 11-bit group indices taken from a 132-bit final bitstream,
`chunk_start` running over 0, 11, ..., 121. -/
def mnemonicIndices (fb : List Nat) : List Nat :=
  (List.range 12).map (fun i => chunkIndex ((fb.drop (11 * i)).take 11))

/-- `fn bitstream_to_mnemonic`: panics unless the bitstream has exactly 132
bits, asserts every group index is at most 2047, and resolves each index in
the wordlist; any panic is `none`. -/
def bitstream_to_mnemonic (final_bitstream : List Nat) (wordlist : Nat → String) :
    Option (List String) :=
  if final_bitstream.length = 132 then
    let idxs := mnemonicIndices final_bitstream
    if idxs.all (fun ix => ix ≤ 2047) then some (idxs.map wordlist) else none
  else none

/-- Modelled from the spec: the SHA-256 word size reduction, `x mod 2^32`.
The hash itself lives in the external sha2 crate, not under src/, so it is
reconstructed here from the spec sentence "compute a cryptographic hash
(SHA-256) of the packed buffer" following FIPS 180-4. -/
def w32 (x : Nat) : Nat := x % 4294967296

/-- Modelled from the spec: 32-bit right rotation by n. -/
def rotr32 (n x : Nat) : Nat := x % 2 ^ n * 2 ^ (32 - n) + x / 2 ^ n

/-- Modelled from the spec: SHA-256 big sigma 0. -/
def bsig0 (x : Nat) : Nat := rotr32 2 x ^^^ rotr32 13 x ^^^ rotr32 22 x

/-- Modelled from the spec: SHA-256 big sigma 1. -/
def bsig1 (x : Nat) : Nat := rotr32 6 x ^^^ rotr32 11 x ^^^ rotr32 25 x

/-- Modelled from the spec: SHA-256 small sigma 0. -/
def ssig0 (x : Nat) : Nat := rotr32 7 x ^^^ rotr32 18 x ^^^ x / 2 ^ 3

/-- Modelled from the spec: SHA-256 small sigma 1. -/
def ssig1 (x : Nat) : Nat := rotr32 17 x ^^^ rotr32 19 x ^^^ x / 2 ^ 10

/-- Modelled from the spec: SHA-256 choice function; the complement of a
reduced 32-bit word is its difference from the all-ones mask. -/
def sha256Ch (e f g : Nat) : Nat :=
  (e &&& f) ^^^ ((4294967295 - e % 4294967296) &&& g)

/-- Modelled from the spec: SHA-256 majority function. -/
def sha256Maj (a b c : Nat) : Nat :=
  (a &&& b) ^^^ (a &&& c) ^^^ (b &&& c)

/-- Modelled from the spec: the 64 SHA-256 round constants, in decimal. -/
def sha256K : List Nat :=
  [1116352408, 1899447441, 3049323471, 3921009573, 961987163, 1508970993,
   2453635748, 2870763221, 3624381080, 310598401, 607225278, 1426881987,
   1925078388, 2162078206, 2614888103, 3248222580, 3835390401, 4022224774,
   264347078, 604807628, 770255983, 1249150122, 1555081692, 1996064986,
   2554220882, 2821834349, 2952996808, 3210313671, 3336571891, 3584528711,
   113926993, 338241895, 666307205, 773529912, 1294757372, 1396182291,
   1695183700, 1986661051, 2177026350, 2456956037, 2730485921, 2820302411,
   3259730800, 3345764771, 3516065817, 3600352804, 4094571909, 275423344,
   430227734, 506948616, 659060556, 883997877, 958139571, 1322822218,
   1537002063, 1747873779, 1955562222, 2024104815, 2227730452, 2361852424,
   2428436474, 2756734187, 3204031479, 3329325298]

/-- Modelled from the spec: the SHA-256 working state, eight 32-bit words. -/
structure Sha256State where
  a : Nat
  b : Nat
  c : Nat
  d : Nat
  e : Nat
  f : Nat
  g : Nat
  h : Nat
deriving DecidableEq

/-- Modelled from the spec: the SHA-256 initial hash value, in decimal. -/
def sha256Init : Sha256State :=
  ⟨1779033703, 3144134277, 1013904242, 2773480762,
   1359893119, 2600822924, 528734635, 1541459225⟩

/-- Modelled from the spec: one SHA-256 compression round. -/
def sha256Round (st : Sha256State) (k w : Nat) : Sha256State :=
  let t1 := w32 (st.h + bsig1 st.e + sha256Ch st.e st.f st.g + k + w)
  let t2 := w32 (bsig0 st.a + sha256Maj st.a st.b st.c)
  ⟨w32 (t1 + t2), st.a, st.b, st.c, w32 (st.d + t1), st.e, st.f, st.g⟩

/-- Modelled from the spec: group a byte list into big-endian 32-bit words. -/
def toWords32 : List Nat → List Nat
  | a :: b :: c :: d :: rest =>
    (a * 16777216 + b * 65536 + c * 256 + d) :: toWords32 rest
  | _ => []

/-- Modelled from the spec: extend 16 message words to the 64-entry SHA-256
message schedule. -/
def sha256Schedule (ws : List Nat) : List Nat :=
  (List.range 48).foldl
    (fun w _ =>
      w ++ [w32 (ssig1 (w.getD (w.length - 2) 0) + w.getD (w.length - 7) 0 +
                 ssig0 (w.getD (w.length - 15) 0) + w.getD (w.length - 16) 0)])
    ws

/-- Modelled from the spec: compress one 64-byte chunk into the state. -/
def sha256Compress (st : Sha256State) (chunk : List Nat) : Sha256State :=
  let r := (List.zip sha256K (sha256Schedule (toWords32 chunk))).foldl
    (fun s kw => sha256Round s kw.1 kw.2) st
  ⟨w32 (st.a + r.a), w32 (st.b + r.b), w32 (st.c + r.c), w32 (st.d + r.d),
   w32 (st.e + r.e), w32 (st.f + r.f), w32 (st.g + r.g), w32 (st.h + r.h)⟩

/-- Modelled from the spec: split a byte list into 64-byte chunks; the
fuel argument bounds the recursion by the list length. -/
def chunks64Fuel : Nat → List Nat → List (List Nat)
  | 0, _ => []
  | _ + 1, [] => []
  | fuel + 1, x :: rest =>
    ((x :: rest).take 64) :: chunks64Fuel fuel ((x :: rest).drop 64)

/-- Modelled from the spec: split a byte list into 64-byte chunks. -/
def chunks64 (l : List Nat) : List (List Nat) := chunks64Fuel l.length l

/-- Modelled from the spec: SHA-256 message padding, one 0x80 byte, zero
fill to 56 mod 64, then the bit length as eight big-endian bytes. -/
def sha256Pad (msg : List Nat) : List Nat :=
  msg ++ 128 :: (List.replicate ((119 - msg.length % 64) % 64) 0 ++
    (List.range 8).map (fun i => 8 * msg.length / 256 ^ (7 - i) % 256))

/-- Modelled from the spec: serialize one 32-bit word as four big-endian
bytes. -/
def word32ToBytes (x : Nat) : List Nat :=
  [x / 16777216 % 256, x / 65536 % 256, x / 256 % 256, x % 256]

/-- `fn hash_bitstream`: the SHA-256 digest of the packed buffer, as the
32-byte list returned by the sha2 crate.  Modelled from the spec: the crate
itself is outside src/, the digest computation follows FIPS 180-4. -/
def hash_bitstream (bitstream : List Nat) : List Nat :=
  let fin := (chunks64 (sha256Pad bitstream)).foldl sha256Compress sha256Init
  word32ToBytes fin.a ++ word32ToBytes fin.b ++ word32ToBytes fin.c ++
  word32ToBytes fin.d ++ word32ToBytes fin.e ++ word32ToBytes fin.f ++
  word32ToBytes fin.g ++ word32ToBytes fin.h

/-- Observable outcome of a whole program run: a printed mnemonic with the
normal exit (code 0), an explicit process exit, a panic (the Rust runtime
exits with code 101), or blocking on exhausted input. -/
inductive ProgResult where
  | ok (mnemonic : List String)
  | exited (code : Nat)
  | panicked
  | blocked
deriving DecidableEq

/-- The process exit code of each outcome: normal completion and
`std::process::exit(0)` give 0, a Rust panic gives 101, a blocked run has
none. -/
def exitCode : ProgResult → Option Nat
  | .ok _ => some 0
  | .exited c => some c
  | .panicked => some 101
  | .blocked => none

/-- `fn main`: choose the word count from the flags, derive the entropy
size, collect flips, pack, hash, append the checksum and print the
mnemonic.  Input tokens, rng draws and the wordlist are passed in. -/
def main (args : Args) (tokens : List String) (rng : Nat → Nat)
    (wordlist : Nat → String) : ProgResult :=
  match choose_words args with
  | none => .panicked
  | some words =>
    match get_entropy_bits words with
    | none => .panicked
    | some entropy_bits =>
      match prompt_for_coin_flips entropy_bits rng tokens [] with
      | .blocked => .blocked
      | .exited c => .exited c
      | .collected coin_flips =>
        let bitstream := flips_to_bitstream coin_flips
        let sha256_hash := hash_bitstream bitstream
        match extract_checksum bitstream sha256_hash entropy_bits with
        | none => .panicked
        | some final_bitstream =>
          match bitstream_to_mnemonic final_bitstream wordlist with
          | none => .panicked
          | some mnemonic => .ok mnemonic

/-! ### Bit arithmetic helpers -/

theorem two_mul_lor_one (k : Nat) : 2 * k ||| 1 = 2 * k + 1 := by
  have h1 : (2 * k : Nat) = Nat.bit false k := by simp [Nat.bit]
  have h2 : (1 : Nat) = Nat.bit true 0 := by simp [Nat.bit]
  rw [h1, h2, Nat.lor_bit]
  simp [Nat.bit]

theorem lor_bit_of_even (c b : Nat) (hb : b ≤ 1) (hc : c % 2 = 0) :
    c ||| b = c + b := by
  interval_cases b
  · simp
  · obtain ⟨k, rfl⟩ : ∃ k, c = 2 * k := ⟨c / 2, by omega⟩
    exact two_mul_lor_one k

/-! ### BitstreamPacker -/

/-- The byte assembled by eight iterations of the packing loop body. -/
def packByte (b1 b2 b3 b4 b5 b6 b7 b8 : Nat) : Nat :=
  [b1, b2, b3, b4, b5, b6, b7, b8].foldl
    (fun cur bit => ((cur <<< 1) % 256) ||| bit) 0

theorem flips_to_bitstream_chunk (b1 b2 b3 b4 b5 b6 b7 b8 : Nat) (rest : List Nat) :
    flips_to_bitstream (b1 :: b2 :: b3 :: b4 :: b5 :: b6 :: b7 :: b8 :: rest) =
      packByte b1 b2 b3 b4 b5 b6 b7 b8 :: flips_to_bitstream rest := rfl

theorem packByte_bits (b1 b2 b3 b4 b5 b6 b7 b8 : Nat)
    (h1 : b1 ≤ 1) (h2 : b2 ≤ 1) (h3 : b3 ≤ 1) (h4 : b4 ≤ 1)
    (h5 : b5 ≤ 1) (h6 : b6 ≤ 1) (h7 : b7 ≤ 1) (h8 : b8 ≤ 1) :
    byteToBits (packByte b1 b2 b3 b4 b5 b6 b7 b8) = [b1, b2, b3, b4, b5, b6, b7, b8] ∧
      packByte b1 b2 b3 b4 b5 b6 b7 b8 < 256 := by
  interval_cases b1 <;> interval_cases b2 <;> interval_cases b3 <;> interval_cases b4 <;>
    interval_cases b5 <;> interval_cases b6 <;> interval_cases b7 <;> interval_cases b8 <;>
    exact ⟨by decide, by decide⟩

/-- Induction on a list in leading groups of eight elements. -/
theorem chunk8_induction {motive : List Nat → Prop}
    (h0 : motive [])
    (h1 : ∀ a, motive [a])
    (h2 : ∀ a b, motive [a, b])
    (h3 : ∀ a b c, motive [a, b, c])
    (h4 : ∀ a b c d, motive [a, b, c, d])
    (h5 : ∀ a b c d e, motive [a, b, c, d, e])
    (h6 : ∀ a b c d e f, motive [a, b, c, d, e, f])
    (h7 : ∀ a b c d e f g, motive [a, b, c, d, e, f, g])
    (hstep : ∀ a b c d e f g h rest, motive rest →
      motive (a :: b :: c :: d :: e :: f :: g :: h :: rest)) :
    ∀ l, motive l
  | [] => h0
  | [a] => h1 a
  | [a, b] => h2 a b
  | [a, b, c] => h3 a b c
  | [a, b, c, d] => h4 a b c d
  | [a, b, c, d, e] => h5 a b c d e
  | [a, b, c, d, e, f] => h6 a b c d e f
  | [a, b, c, d, e, f, g] => h7 a b c d e f g
  | a :: b :: c :: d :: e :: f :: g :: h :: rest =>
    hstep a b c d e f g h rest
      (chunk8_induction h0 h1 h2 h3 h4 h5 h6 h7 hstep rest)

/-- Full behaviour of the packer on well-formed bit lists: the buffer has
ceil(len / 8) bytes, expanding it MSB first gives back the input followed
by the zero fill of the final partial byte, and every entry is a byte. -/
theorem pack_spec : ∀ (flips : List Nat), (∀ b ∈ flips, b ≤ 1) →
    (flips_to_bitstream flips).length = (flips.length + 7) / 8 ∧
    bytesToBits (flips_to_bitstream flips) =
      flips ++ List.replicate ((8 - flips.length % 8) % 8) 0 ∧
    ∀ y ∈ flips_to_bitstream flips, y < 256 := by
  intro flips
  induction flips using chunk8_induction with
  | h0 => intro _; refine ⟨by decide, by decide, by decide⟩
  | h1 a =>
    intro hb
    have := hb a (by simp)
    interval_cases a <;> exact ⟨by decide, by decide, by decide⟩
  | h2 a b =>
    intro hb
    have := hb a (by simp); have := hb b (by simp)
    interval_cases a <;> interval_cases b <;> exact ⟨by decide, by decide, by decide⟩
  | h3 a b c =>
    intro hb
    have := hb a (by simp); have := hb b (by simp); have := hb c (by simp)
    interval_cases a <;> interval_cases b <;> interval_cases c <;>
      exact ⟨by decide, by decide, by decide⟩
  | h4 a b c d =>
    intro hb
    have := hb a (by simp); have := hb b (by simp); have := hb c (by simp)
    have := hb d (by simp)
    interval_cases a <;> interval_cases b <;> interval_cases c <;> interval_cases d <;>
      exact ⟨by decide, by decide, by decide⟩
  | h5 a b c d e =>
    intro hb
    have := hb a (by simp); have := hb b (by simp); have := hb c (by simp)
    have := hb d (by simp); have := hb e (by simp)
    interval_cases a <;> interval_cases b <;> interval_cases c <;> interval_cases d <;>
      interval_cases e <;> exact ⟨by decide, by decide, by decide⟩
  | h6 a b c d e f =>
    intro hb
    have := hb a (by simp); have := hb b (by simp); have := hb c (by simp)
    have := hb d (by simp); have := hb e (by simp); have := hb f (by simp)
    interval_cases a <;> interval_cases b <;> interval_cases c <;> interval_cases d <;>
      interval_cases e <;> interval_cases f <;> exact ⟨by decide, by decide, by decide⟩
  | h7 a b c d e f g =>
    intro hb
    have := hb a (by simp); have := hb b (by simp); have := hb c (by simp)
    have := hb d (by simp); have := hb e (by simp); have := hb f (by simp)
    have := hb g (by simp)
    interval_cases a <;> interval_cases b <;> interval_cases c <;> interval_cases d <;>
      interval_cases e <;> interval_cases f <;> interval_cases g <;>
      exact ⟨by decide, by decide, by decide⟩
  | hstep a b c d e f g h rest ih =>
    intro hb
    have ha : a ≤ 1 := hb a (by simp)
    have hbb : b ≤ 1 := hb b (by simp)
    have hc : c ≤ 1 := hb c (by simp)
    have hd : d ≤ 1 := hb d (by simp)
    have he : e ≤ 1 := hb e (by simp)
    have hf : f ≤ 1 := hb f (by simp)
    have hg : g ≤ 1 := hb g (by simp)
    have hh : h ≤ 1 := hb h (by simp)
    have hrest : ∀ x ∈ rest, x ≤ 1 := fun x hx => hb x (by simp [hx])
    obtain ⟨ihl, ihbits, ihy⟩ := ih hrest
    obtain ⟨hbyte, hlt⟩ := packByte_bits a b c d e f g h ha hbb hc hd he hf hg hh
    rw [flips_to_bitstream_chunk]
    refine ⟨?_, ?_, ?_⟩
    · simp only [List.length_cons, ihl]
      omega
    · have hcount : (8 - (a :: b :: c :: d :: e :: f :: g :: h :: rest).length % 8) % 8 =
        (8 - rest.length % 8) % 8 := by simp only [List.length_cons]; omega
      rw [hcount]
      show byteToBits (packByte a b c d e f g h) ++
        bytesToBits (flips_to_bitstream rest) = _
      rw [hbyte, ihbits]
      simp
    · intro y hy
      rcases List.mem_cons.mp hy with hctr | hmem
      · omega
      · exact ihy y hmem

/-! ### ChecksumEngine -/

theorem bytesToBits_length : ∀ l : List Nat, (bytesToBits l).length = 8 * l.length
  | [] => rfl
  | b :: rest => by
    simp [bytesToBits, byteToBits, bytesToBits_length rest]
    omega

theorem hash_bitstream_length (msg : List Nat) : (hash_bitstream msg).length = 32 := by
  simp [hash_bitstream, word32ToBytes]

theorem checksumLoop_take (bytes : List Nat) (cs : Nat)
    (hpos : 0 < cs) (hle : cs ≤ 8) (hne : bytes ≠ []) :
    checksumLoop bytes cs [] = (bytesToBits bytes).take cs := by
  match bytes with
  | b :: rest =>
    have hbyte : bytesToBits (b :: rest) = byteToBits b ++ bytesToBits rest := rfl
    rw [hbyte]
    interval_cases cs <;>
      simp [checksumLoop, innerBits, byteToBits, List.take_append_of_le_length]

/-- Behaviour of the checksum stage on the real pipeline inputs: for any
supported entropy size the assert passes and the final bitstream is the raw
bits followed by the first `ent / 32` digest bits, MSB first. -/
theorem extract_checksum_spec (raw : List Nat) (ent : Nat)
    (hlen : raw.length = ent)
    (hent : ent = 128 ∨ ent = 160 ∨ ent = 192 ∨ ent = 224 ∨ ent = 256)
    (hb : ∀ b ∈ raw, b ≤ 1) :
    extract_checksum (flips_to_bitstream raw)
        (hash_bitstream (flips_to_bitstream raw)) ent =
      some (raw ++
        (bytesToBits (hash_bitstream (flips_to_bitstream raw))).take (ent / 32)) ∧
    (raw ++
        (bytesToBits (hash_bitstream (flips_to_bitstream raw))).take (ent / 32)).length =
      ent + ent / 32 := by
  have hmod : ent % 8 = 0 := by rcases hent with h | h | h | h | h <;> omega
  have hcs_pos : 0 < ent / 32 := by rcases hent with h | h | h | h | h <;> omega
  have hcs_le : ent / 32 ≤ 8 := by rcases hent with h | h | h | h | h <;> omega
  obtain ⟨hplen, hpbits, _⟩ := pack_spec raw hb
  have hzero : (8 - raw.length % 8) % 8 = 0 := by omega
  have hunpack : bytesToBits (flips_to_bitstream raw) = raw := by
    rw [hpbits, hzero]
    simp
  have hhash := hash_bitstream_length (flips_to_bitstream raw)
  have hhne : hash_bitstream (flips_to_bitstream raw) ≠ [] := by
    intro hcon
    rw [hcon] at hhash
    simp at hhash
  have hloop := checksumLoop_take (hash_bitstream (flips_to_bitstream raw))
    (ent / 32) hcs_pos hcs_le hhne
  have htklen :
      ((bytesToBits (hash_bitstream (flips_to_bitstream raw))).take (ent / 32)).length =
        ent / 32 := by
    rw [List.length_take, bytesToBits_length, hhash]
    omega
  have hfinal :
      (raw ++
        (bytesToBits (hash_bitstream (flips_to_bitstream raw))).take (ent / 32)).length =
        ent + ent / 32 := by
    rw [List.length_append, hlen, htklen]
  refine ⟨?_, hfinal⟩
  simp only [extract_checksum, hloop, hunpack]
  rw [if_pos hfinal]

/-! ### MnemonicEncoder -/

theorem chunkFold_lt (l : List Nat) : ∀ (acc n : Nat), (∀ b ∈ l, b ≤ 1) →
    acc < 2 ^ n → n + l.length ≤ 16 →
    l.foldl (fun acc bit => ((acc <<< 1) % 65536) ||| bit) acc < 2 ^ (n + l.length) := by
  induction l with
  | nil =>
    intro acc n _ hacc _
    simpa using hacc
  | cons x xs ih =>
    intro acc n hb hacc hle
    have hx : x ≤ 1 := hb x (by simp)
    have hsh : acc <<< 1 = 2 * acc := by rw [Nat.shiftLeft_eq]; ring
    have hpow : (2 : Nat) ^ n ≤ 2 ^ 15 :=
      Nat.pow_le_pow_right (by norm_num) (by simp at hle; omega)
    have hlt : 2 * acc < 65536 := by norm_num at hpow; omega
    have heven : (2 * acc) % 2 = 0 := by omega
    have hstep : ((acc <<< 1) % 65536) ||| x = 2 * acc + x := by
      rw [hsh, Nat.mod_eq_of_lt hlt]
      exact lor_bit_of_even _ _ hx heven
    have harr : n + (x :: xs).length = (n + 1) + xs.length := by simp; omega
    rw [harr, List.foldl_cons, hstep]
    exact ih (2 * acc + x) (n + 1) (fun b hb' => hb b (by simp [hb']))
      (by rw [pow_succ]; omega) (by simp at hle ⊢; omega)

theorem chunkIndex_le (chunk : List Nat) (hb : ∀ b ∈ chunk, b ≤ 1)
    (hlen : chunk.length ≤ 11) : chunkIndex chunk ≤ 2047 := by
  have h1 : chunkIndex chunk < 2 ^ (0 + chunk.length) :=
    chunkFold_lt chunk 0 0 hb (by norm_num) (by omega)
  have h2 : (2 : Nat) ^ (0 + chunk.length) ≤ 2 ^ 11 :=
    Nat.pow_le_pow_right (by norm_num) (by omega)
  norm_num at h1 h2
  omega

theorem mnemonicIndices_length (fb : List Nat) : (mnemonicIndices fb).length = 12 := by
  simp [mnemonicIndices]

/-- On any 132-bit list of 0/1 flips every 11-bit group index is at most
2047 and the encoder succeeds. -/
theorem mnemonic_total (fb : List Nat) (hlen : fb.length = 132)
    (hb : ∀ b ∈ fb, b ≤ 1) :
    (mnemonicIndices fb).all (fun ix => ix ≤ 2047) = true ∧
    ∀ wordlist : Nat → String,
      bitstream_to_mnemonic fb wordlist = some ((mnemonicIndices fb).map wordlist) := by
  have hall : (mnemonicIndices fb).all (fun ix => ix ≤ 2047) = true := by
    rw [List.all_eq_true]
    intro ix hix
    simp only [mnemonicIndices, List.mem_map, List.mem_range] at hix
    obtain ⟨i, _, rfl⟩ := hix
    simp only [decide_eq_true_eq]
    refine chunkIndex_le _ ?_ ?_
    · intro b hbmem
      exact hb b (List.drop_subset _ _ (List.take_subset _ _ hbmem))
    · rw [List.length_take]
      omega
  refine ⟨hall, fun wordlist => ?_⟩
  unfold bitstream_to_mnemonic
  rw [if_pos hlen]
  simp [hall]

/-! ### EntropyCollector -/

theorem prompt_qq (entropy_bits : Nat) (rng : Nat → Nat) (rest : List String)
    (flips : List Nat) (h : flips.length < entropy_bits) :
    prompt_for_coin_flips entropy_bits rng ("qq" :: rest) flips = .exited 0 := by
  rw [prompt_for_coin_flips]
  simp [Nat.not_le.mpr h]

theorem prompt_preload (entropy_bits : Nat) (rng : Nat → Nat) (rest : List String)
    (flips : List Nat) (h : flips.length < entropy_bits) :
    prompt_for_coin_flips entropy_bits rng ("preload" :: rest) flips =
      .collected preloadBits := by
  rw [prompt_for_coin_flips]
  simp [Nat.not_le.mpr h]

theorem prompt_fill (entropy_bits : Nat) (rng : Nat → Nat) (rest : List String)
    (flips : List Nat) (h : flips.length < entropy_bits) :
    prompt_for_coin_flips entropy_bits rng ("fill" :: rest) flips =
      .collected (flips ++ List.replicate (entropy_bits - flips.length) 1) := by
  rw [prompt_for_coin_flips]
  simp [Nat.not_le.mpr h]

theorem prompt_h_prefix (k : Nat) : ∀ (entropy_bits : Nat) (rng : Nat → Nat)
    (rest : List String) (flips : List Nat), flips.length + k < entropy_bits →
    prompt_for_coin_flips entropy_bits rng (List.replicate k "h" ++ rest) flips =
      prompt_for_coin_flips entropy_bits rng rest (flips ++ List.replicate k 1) := by
  induction k with
  | zero =>
    intro entropy_bits rng rest flips _
    simp
  | succ n ih =>
    intro entropy_bits rng rest flips hlt
    rw [List.replicate_succ, List.cons_append, prompt_for_coin_flips]
    have hnotle : ¬ entropy_bits ≤ flips.length := by omega
    simp only [if_neg hnotle, if_pos rfl]
    rw [ih entropy_bits rng rest (flips ++ [1]) (by simp; omega)]
    simp [List.replicate_succ]

/-! ### Preload and whole-program helpers -/

theorem preloadBits_length : preloadBits.length = 128 := by decide

theorem preloadBits_bits : ∀ b ∈ preloadBits, b ≤ 1 := by decide

/-- For every supported entropy size other than 128 the checksum stage
rejects the preloaded 128-bit stream: its length assert fails. -/
theorem preload_mismatch (ent : Nat)
    (hent : ent = 160 ∨ ent = 192 ∨ ent = 224 ∨ ent = 256) :
    extract_checksum (flips_to_bitstream preloadBits)
      (hash_bitstream (flips_to_bitstream preloadBits)) ent = none := by
  obtain ⟨_, hpbits, _⟩ := pack_spec preloadBits preloadBits_bits
  have hunpack : bytesToBits (flips_to_bitstream preloadBits) = preloadBits := by
    rw [hpbits, preloadBits_length]
    simp
  have hcs_pos : 0 < ent / 32 := by rcases hent with h | h | h | h <;> omega
  have hcs_le : ent / 32 ≤ 8 := by rcases hent with h | h | h | h <;> omega
  have hhash := hash_bitstream_length (flips_to_bitstream preloadBits)
  have hhne : hash_bitstream (flips_to_bitstream preloadBits) ≠ [] := by
    intro hcon
    rw [hcon] at hhash
    simp at hhash
  have hloop := checksumLoop_take (hash_bitstream (flips_to_bitstream preloadBits))
    (ent / 32) hcs_pos hcs_le hhne
  have hne2 : (bytesToBits (flips_to_bitstream preloadBits) ++
      checksumLoop (hash_bitstream (flips_to_bitstream preloadBits)) (ent / 32) []).length ≠
      ent + ent / 32 := by
    rw [List.length_append, hunpack, preloadBits_length, hloop, List.length_take,
      bytesToBits_length, hhash]
    rcases hent with h | h | h | h <;> omega
  simp only [extract_checksum]
  rw [if_neg hne2]

/-- A run whose flags resolve to a strength other than 12 words panics on
the preload path: the 128 preset bits fail the checksum length assert. -/
theorem main_preload_panics (a : Args) (w ent : Nat)
    (hw : choose_words a = some w) (hent : get_entropy_bits w = some ent)
    (hEnt : ent = 160 ∨ ent = 192 ∨ ent = 224 ∨ ent = 256)
    (rng : Nat → Nat) (wl : Nat → String) :
    main a ["preload"] rng wl = .panicked := by
  have hp : prompt_for_coin_flips ent rng ["preload"] [] = .collected preloadBits :=
    prompt_preload ent rng [] [] (by rcases hEnt with h | h | h | h <;> simp [h])
  have hx := preload_mismatch ent hEnt
  simp [main, hw, hent, hp, hx]

/-! ### Claims -/

/-- C1: the claim says `bitstream_to_mnemonic` succeeds on every final
bitstream of length 132, 165, 198, 231 or 264 and yields len / 11 words.
The code hard-codes 132: it panics on a 165-bit stream (any ENT other than
128), contradicting the programs own header comment and its --15 .. --24
flags; the 132-bit (12 word) path works.  This theorem evaluates the code
at the failing input: a 15-word run completed with the fill shortcut
panics, while the corresponding 12-word run prints 12 words. -/
theorem claim_C1_mnemonic_rejects_non_132 :
    bitstream_to_mnemonic (List.replicate 165 0) (fun _ => "w") = none ∧
    main ⟨false, true, false, false, false⟩ ["fill"] (fun _ => 0) (fun _ => "w") =
      .panicked ∧
    main ⟨true, false, false, false, false⟩ ["fill"] (fun _ => 0) (fun _ => "w") =
      .ok (List.replicate 12 "w") := by
  refine ⟨by decide, by decide, by decide⟩

/-- C2: for every raw 0/1 sequence of a supported length ENT, the checksum
stage succeeds and returns the raw bits followed by exactly the first
ENT / 32 bits of the SHA-256 digest of the packed buffer, read byte by
byte MSB first; the result has length ENT + ENT / 32. -/
theorem claim_C2_checksum_appends_digest_prefix (raw : List Nat)
    (hent : raw.length = 128 ∨ raw.length = 160 ∨ raw.length = 192 ∨
      raw.length = 224 ∨ raw.length = 256)
    (hb : ∀ b ∈ raw, b ≤ 1) :
    extract_checksum (flips_to_bitstream raw)
        (hash_bitstream (flips_to_bitstream raw)) raw.length =
      some (raw ++
        (bytesToBits (hash_bitstream (flips_to_bitstream raw))).take (raw.length / 32)) ∧
    (raw ++
        (bytesToBits (hash_bitstream (flips_to_bitstream raw))).take
          (raw.length / 32)).length =
      raw.length + raw.length / 32 :=
  extract_checksum_spec raw raw.length rfl hent hb

/-- Witness for C2 at the concrete raw sequence of 128 one bits. -/
theorem claim_C2_checksum_appends_digest_prefix_witness :
    extract_checksum (flips_to_bitstream (List.replicate 128 1))
        (hash_bitstream (flips_to_bitstream (List.replicate 128 1)))
        (List.replicate 128 1).length =
      some (List.replicate 128 1 ++
        (bytesToBits (hash_bitstream (flips_to_bitstream (List.replicate 128 1)))).take
          ((List.replicate 128 1).length / 32)) ∧
    (List.replicate 128 1 ++
        (bytesToBits (hash_bitstream (flips_to_bitstream (List.replicate 128 1)))).take
          ((List.replicate 128 1).length / 32)).length =
      (List.replicate 128 1).length + (List.replicate 128 1).length / 32 :=
  claim_C2_checksum_appends_digest_prefix (List.replicate 128 1)
    (by decide) (by decide)

/-- C3: on every 0/1 sequence of length L the packer emits exactly
ceil(L / 8) bytes whose MSB-first expansion is the input followed by the
zero fill of the final partial byte; every entry is a byte value. -/
theorem claim_C3_packer_shape (flips : List Nat) (hb : ∀ b ∈ flips, b ≤ 1) :
    (flips_to_bitstream flips).length = (flips.length + 7) / 8 ∧
    bytesToBits (flips_to_bitstream flips) =
      flips ++ List.replicate ((8 - flips.length % 8) % 8) 0 ∧
    ∀ y ∈ flips_to_bitstream flips, y < 256 :=
  pack_spec flips hb

/-- Witness for C3 at the 3-bit input 1,0,1, packed to the single byte
0xA0. -/
theorem claim_C3_packer_shape_witness :
    (flips_to_bitstream [1, 0, 1]).length = (([1, 0, 1] : List Nat).length + 7) / 8 ∧
    bytesToBits (flips_to_bitstream [1, 0, 1]) =
      [1, 0, 1] ++ List.replicate ((8 - ([1, 0, 1] : List Nat).length % 8) % 8) 0 ∧
    ∀ y ∈ flips_to_bitstream [1, 0, 1], y < 256 :=
  claim_C3_packer_shape [1, 0, 1] (by decide)

/-- C4 counterexample: the claim says the abort exit code differs from the
success code.  In the code, qq calls process exit 0 and normal completion
also exits 0: an aborted run and a successful run report the same code. -/
theorem claim_C4_abort_code_counterexample :
    main ⟨true, false, false, false, false⟩ ["qq"] (fun _ => 0) (fun _ => "w") =
      .exited 0 ∧
    exitCode (main ⟨true, false, false, false, false⟩ ["qq"] (fun _ => 0)
        (fun _ => "w")) =
      exitCode (main ⟨true, false, false, false, false⟩ ["fill"] (fun _ => 0)
        (fun _ => "w")) := by
  refine ⟨by decide, by decide⟩

/-- C4 amended: abort during collection, at any partial bit count, yields
no mnemonic and terminates immediately, but with exit code 0, the same
code as normal completion (distinct only from the panic code 101). -/
theorem claim_C4_abort_amended :
    (∀ (entropy_bits : Nat) (rng : Nat → Nat) (rest : List String) (flips : List Nat),
      flips.length < entropy_bits →
      prompt_for_coin_flips entropy_bits rng ("qq" :: rest) flips = .exited 0) ∧
    (∀ (k : Nat) (rng : Nat → Nat) (wl : Nat → String), k < 128 →
      main ⟨true, false, false, false, false⟩ (List.replicate k "h" ++ ["qq"]) rng wl =
        .exited 0) ∧
    exitCode (ProgResult.exited 0) = exitCode (ProgResult.ok []) := by
  refine ⟨fun N rng rest flips h => prompt_qq N rng rest flips h, ?_, rfl⟩
  intro k rng wl hk
  have h1 := prompt_h_prefix k 128 rng ["qq"] [] (by simpa using hk)
  simp only [List.nil_append] at h1
  have h2 : prompt_for_coin_flips 128 rng ["qq"] (List.replicate k 1) = .exited 0 :=
    prompt_qq 128 rng [] (List.replicate k 1) (by simpa using hk)
  simp [main, choose_words, get_entropy_bits, h1, h2]

/-- Witness for C4 amended at entropy size 128 after three heads. -/
theorem claim_C4_abort_amended_witness :
    prompt_for_coin_flips 128 (fun _ => 0) ("qq" :: []) [1, 1, 1] = .exited 0 ∧
    main ⟨true, false, false, false, false⟩ (List.replicate 3 "h" ++ ["qq"])
      (fun _ => 0) (fun _ => "w") = .exited 0 :=
  ⟨claim_C4_abort_amended.1 128 (fun _ => 0) [] [1, 1, 1] (by decide),
   claim_C4_abort_amended.2.1 3 (fun _ => 0) (fun _ => "w") (by decide)⟩

/-- C5 counterexample: the claim says a conflicting pair of strength
selectors is a configuration error ending the run before collection.  With
--12 and --24 both set the program proceeds, collects entropy and prints a
12-word mnemonic. -/
theorem claim_C5_conflict_counterexample :
    main ⟨true, false, false, false, true⟩ ["fill"] (fun _ => 0) (fun _ => "w") =
      .ok (List.replicate 12 "w") := by
  decide

/-- C5 amended: with no selector the program panics (nonzero exit) before
reading any input; with several selectors there is no error: the first set
flag in the order 12, 15, 18, 21, 24 wins and the run proceeds exactly as
if that flag were the only one, whatever the flags after it in the chain
say. -/
theorem claim_C5_selector_amended :
    (∀ (tokens : List String) (rng : Nat → Nat) (wl : Nat → String),
      main ⟨false, false, false, false, false⟩ tokens rng wl = .panicked) ∧
    (∀ a : Args, a.twelve = true →
      ∀ (tokens : List String) (rng : Nat → Nat) (wl : Nat → String),
      main a tokens rng wl =
        main ⟨true, false, false, false, false⟩ tokens rng wl) ∧
    (∀ a : Args, a.twelve = false → a.fifteen = true →
      ∀ (tokens : List String) (rng : Nat → Nat) (wl : Nat → String),
      main a tokens rng wl =
        main ⟨false, true, false, false, false⟩ tokens rng wl) ∧
    (∀ a : Args, a.twelve = false → a.fifteen = false → a.eighteen = true →
      ∀ (tokens : List String) (rng : Nat → Nat) (wl : Nat → String),
      main a tokens rng wl =
        main ⟨false, false, true, false, false⟩ tokens rng wl) ∧
    (∀ a : Args, a.twelve = false → a.fifteen = false → a.eighteen = false →
      a.twenty_one = true →
      ∀ (tokens : List String) (rng : Nat → Nat) (wl : Nat → String),
      main a tokens rng wl =
        main ⟨false, false, false, true, false⟩ tokens rng wl) ∧
    (∀ a : Args, a.twelve = false → a.fifteen = false → a.eighteen = false →
      a.twenty_one = false → a.twenty_four = true →
      ∀ (tokens : List String) (rng : Nat → Nat) (wl : Nat → String),
      main a tokens rng wl =
        main ⟨false, false, false, false, true⟩ tokens rng wl) := by
  refine ⟨?_, ?_, ?_, ?_, ?_, ?_⟩
  · intro tokens rng wl
    simp [main, choose_words]
  · intro a h12 tokens rng wl
    simp [main, choose_words, h12]
  · intro a h12 h15 tokens rng wl
    simp [main, choose_words, h12, h15]
  · intro a h12 h15 h18 tokens rng wl
    simp [main, choose_words, h12, h15, h18]
  · intro a h12 h15 h18 h21 tokens rng wl
    simp [main, choose_words, h12, h15, h18, h21]
  · intro a h12 h15 h18 h21 h24 tokens rng wl
    simp [main, choose_words, h12, h15, h18, h21, h24]

/-- Witness for C5 amended: no flags panic regardless of input; all five
flags behave exactly like --12 alone; the conflicts --15 --24,
--18 --24, --21 --24 and the lone --24 each behave exactly like their
first set flag alone. -/
theorem claim_C5_selector_amended_witness :
    main ⟨false, false, false, false, false⟩ ["fill"] (fun _ => 0) (fun _ => "w") =
      .panicked ∧
    main ⟨true, true, true, true, true⟩ ["fill"] (fun _ => 0) (fun _ => "w") =
      main ⟨true, false, false, false, false⟩ ["fill"] (fun _ => 0) (fun _ => "w") ∧
    main ⟨false, true, false, false, true⟩ ["fill"] (fun _ => 0) (fun _ => "w") =
      main ⟨false, true, false, false, false⟩ ["fill"] (fun _ => 0) (fun _ => "w") ∧
    main ⟨false, false, true, false, true⟩ ["fill"] (fun _ => 0) (fun _ => "w") =
      main ⟨false, false, true, false, false⟩ ["fill"] (fun _ => 0) (fun _ => "w") ∧
    main ⟨false, false, false, true, true⟩ ["fill"] (fun _ => 0) (fun _ => "w") =
      main ⟨false, false, false, true, false⟩ ["fill"] (fun _ => 0) (fun _ => "w") ∧
    main ⟨false, false, false, false, true⟩ ["fill"] (fun _ => 0) (fun _ => "w") =
      main ⟨false, false, false, false, true⟩ ["fill"] (fun _ => 0) (fun _ => "w") :=
  ⟨claim_C5_selector_amended.1 ["fill"] (fun _ => 0) (fun _ => "w"),
   claim_C5_selector_amended.2.1 ⟨true, true, true, true, true⟩ rfl ["fill"]
     (fun _ => 0) (fun _ => "w"),
   claim_C5_selector_amended.2.2.1 ⟨false, true, false, false, true⟩ rfl rfl ["fill"]
     (fun _ => 0) (fun _ => "w"),
   claim_C5_selector_amended.2.2.2.1 ⟨false, false, true, false, true⟩ rfl rfl rfl
     ["fill"] (fun _ => 0) (fun _ => "w"),
   claim_C5_selector_amended.2.2.2.2.1 ⟨false, false, false, true, true⟩ rfl rfl rfl
     rfl ["fill"] (fun _ => 0) (fun _ => "w"),
   claim_C5_selector_amended.2.2.2.2.2 ⟨false, false, false, false, true⟩ rfl rfl rfl
     rfl rfl ["fill"] (fun _ => 0) (fun _ => "w")⟩

/-- C6 counterexample: the claim says a preset whose length differs from
the required bit count fails loudly at that point and is never substituted
at the wrong length.  At N = 160 the preload event is accepted on the spot
and returns the 128-bit preset with no check. -/
theorem claim_C6_preset_counterexample :
    prompt_for_coin_flips 160 (fun _ => 0) ["preload"] [] = .collected preloadBits ∧
    preloadBits.length = 128 :=
  ⟨prompt_preload 160 (fun _ => 0) [] [] (by simp), preloadBits_length⟩

/-- C6 amended: the preset is substituted at its fixed length 128 with no
check at the prompt; for every other supported strength the mismatch is
caught only later, by the final-bitstream length assert in
extract_checksum, so the run panics and never truncates, pads or prints a
mnemonic. -/
theorem claim_C6_preset_amended (a : Args) (rng : Nat → Nat) (wl : Nat → String)
    (h12 : a.twelve = false)
    (hsome : a.fifteen = true ∨ a.eighteen = true ∨ a.twenty_one = true ∨
      a.twenty_four = true) :
    main a ["preload"] rng wl = .panicked := by
  by_cases h15 : a.fifteen
  · exact main_preload_panics a 15 160 (by simp [choose_words, h12, h15]) rfl
      (Or.inl rfl) rng wl
  · by_cases h18 : a.eighteen
    · exact main_preload_panics a 18 192 (by simp [choose_words, h12, h15, h18]) rfl
        (Or.inr (Or.inl rfl)) rng wl
    · by_cases h21 : a.twenty_one
      · exact main_preload_panics a 21 224
          (by simp [choose_words, h12, h15, h18, h21]) rfl
          (Or.inr (Or.inr (Or.inl rfl))) rng wl
      · have h24 : a.twenty_four = true := by
          rcases hsome with h | h | h | h <;> simp_all
        exact main_preload_panics a 24 256
          (by simp [choose_words, h12, h15, h18, h21, h24]) rfl
          (Or.inr (Or.inr (Or.inr rfl))) rng wl

/-- Witness for C6 amended at the --15 run. -/
theorem claim_C6_preset_amended_witness :
    main ⟨false, true, false, false, false⟩ ["preload"] (fun _ => 0) (fun _ => "w") =
      .panicked :=
  claim_C6_preset_amended ⟨false, true, false, false, false⟩ (fun _ => 0)
    (fun _ => "w") rfl (Or.inl rfl)

/-- C7: on every 132-bit 0/1 final bitstream each 11-bit group folds to an
index of at most 2047, so the assert never fires, the wordlist lookup is in
bounds and the encoder returns the unclamped indices resolved in order. -/
theorem claim_C7_indices_in_range (fb : List Nat) (hlen : fb.length = 132)
    (hb : ∀ b ∈ fb, b ≤ 1) :
    (mnemonicIndices fb).all (fun ix => ix ≤ 2047) = true ∧
    ∀ wordlist : Nat → String,
      bitstream_to_mnemonic fb wordlist = some ((mnemonicIndices fb).map wordlist) ∧
      ((mnemonicIndices fb).map wordlist).length = 12 := by
  obtain ⟨h1, h2⟩ := mnemonic_total fb hlen hb
  exact ⟨h1, fun wl => ⟨h2 wl, by simp [mnemonicIndices]⟩⟩

/-- Witness for C7 at the all-zero 132-bit stream. -/
theorem claim_C7_indices_in_range_witness :
    (mnemonicIndices (List.replicate 132 0)).all (fun ix => ix ≤ 2047) = true ∧
    bitstream_to_mnemonic (List.replicate 132 0) (fun _ => "w") =
      some ((mnemonicIndices (List.replicate 132 0)).map (fun _ => "w")) ∧
    ((mnemonicIndices (List.replicate 132 0)).map (fun _ => "w")).length = 12 :=
  ⟨(claim_C7_indices_in_range (List.replicate 132 0) (by decide) (by decide)).1,
   (claim_C7_indices_in_range (List.replicate 132 0) (by decide) (by decide)).2
     (fun _ => "w")⟩

/-- C8: the packer is deterministic, and on 0/1 sequences whose common
length is a multiple of 8 it is injective: equal buffers force equal
inputs. -/
theorem claim_C8_pack_injective :
    (∀ xs ys : List Nat, xs = ys → flips_to_bitstream xs = flips_to_bitstream ys) ∧
    (∀ xs ys : List Nat, xs.length = ys.length → xs.length % 8 = 0 →
      (∀ b ∈ xs, b ≤ 1) → (∀ b ∈ ys, b ≤ 1) →
      flips_to_bitstream xs = flips_to_bitstream ys → xs = ys) := by
  constructor
  · intro xs ys h
    rw [h]
  · intro xs ys hlen hmod hbx hby hpack
    obtain ⟨_, hx, _⟩ := pack_spec xs hbx
    obtain ⟨_, hy, _⟩ := pack_spec ys hby
    have hzx : (8 - xs.length % 8) % 8 = 0 := by omega
    have hzy : (8 - ys.length % 8) % 8 = 0 := by omega
    rw [hzx] at hx
    rw [hzy] at hy
    simp only [List.replicate_zero, List.append_nil] at hx hy
    calc xs = bytesToBits (flips_to_bitstream xs) := hx.symm
    _ = bytesToBits (flips_to_bitstream ys) := by rw [hpack]
    _ = ys := hy

/-- Witness for C8 at the byte-aligned input 1,0,1,1,0,1,0,0. -/
theorem claim_C8_pack_injective_witness :
    flips_to_bitstream [1, 0, 1] = flips_to_bitstream [1, 0, 1] ∧
    ([1, 0, 1, 1, 0, 1, 0, 0] : List Nat) = [1, 0, 1, 1, 0, 1, 0, 0] :=
  ⟨claim_C8_pack_injective.1 [1, 0, 1] [1, 0, 1] rfl,
   claim_C8_pack_injective.2 [1, 0, 1, 1, 0, 1, 0, 0] [1, 0, 1, 1, 0, 1, 0, 0]
     rfl (by decide) (by decide) (by decide) rfl⟩

/-- C9: the pinned regression fixture.  128 one bits pack to sixteen 0xFF
bytes; the SHA-256 digest of that buffer is the pinned 32-byte value whose
first four bits are 0101; the checksum stage returns the 132-bit stream of
the raw bits plus those four bits; the encoder turns it into 12 words. -/
theorem claim_C9_all_ones_fixture :
    flips_to_bitstream (List.replicate 128 1) = List.replicate 16 255 ∧
    hash_bitstream (List.replicate 16 255) =
      [90, 198, 165, 148, 95, 22, 80, 9, 17, 33, 145, 41, 152, 75, 168, 179,
       135, 160, 111, 36, 254, 56, 60, 228, 232, 26, 115, 41, 64, 101, 70, 27] ∧
    (bytesToBits (hash_bitstream (List.replicate 16 255))).take 4 = [0, 1, 0, 1] ∧
    extract_checksum (List.replicate 16 255) (hash_bitstream (List.replicate 16 255))
        128 =
      some (List.replicate 128 1 ++ [0, 1, 0, 1]) ∧
    (List.replicate 128 1 ++ [0, 1, 0, 1]).length = 132 ∧
    (bitstream_to_mnemonic (List.replicate 128 1 ++ [0, 1, 0, 1]) (fun _ => "w")).map
      List.length = some 12 := by
  refine ⟨by decide, by decide, by decide, by decide, by decide, by decide⟩

/-- C10: the preload event always returns the same 128 bits, eleven copies
of 11111110000 then 1111111, whatever the required count and whatever was
already entered; for every other supported strength the resulting length
mismatch is caught only by the final-bitstream length assert in
extract_checksum. -/
theorem claim_C10_preload_fixed_128 :
    preloadBits.length = 128 ∧
    preloadBits =
      (List.replicate 11 [1, 1, 1, 1, 1, 1, 1, 0, 0, 0, 0]).flatten ++
        [1, 1, 1, 1, 1, 1, 1] ∧
    (∀ (entropy_bits : Nat) (rng : Nat → Nat) (rest : List String) (flips : List Nat),
      flips.length < entropy_bits →
      prompt_for_coin_flips entropy_bits rng ("preload" :: rest) flips =
        .collected preloadBits) ∧
    (∀ ent : Nat, ent = 160 ∨ ent = 192 ∨ ent = 224 ∨ ent = 256 →
      extract_checksum (flips_to_bitstream preloadBits)
        (hash_bitstream (flips_to_bitstream preloadBits)) ent = none) :=
  ⟨preloadBits_length, by decide,
   fun N rng rest flips h => prompt_preload N rng rest flips h,
   fun ent h => preload_mismatch ent h⟩

/-- Witness for C10 at N = 160 with three flips already entered. -/
theorem claim_C10_preload_fixed_128_witness :
    prompt_for_coin_flips 160 (fun _ => 0) ("preload" :: []) [1, 0, 1] =
      .collected preloadBits ∧
    extract_checksum (flips_to_bitstream preloadBits)
      (hash_bitstream (flips_to_bitstream preloadBits)) 160 = none :=
  ⟨claim_C10_preload_fixed_128.2.2.1 160 (fun _ => 0) [] [1, 0, 1] (by decide),
   claim_C10_preload_fixed_128.2.2.2 160 (Or.inl rfl)⟩

end Cointoss
